import Mathlib

/-
  Verification of the transaction selector of goofylfg/zkevm-node
  (src/sequencer/strategy/txselector/txselector.go).

  The Go package defines two selector variants:
    * AcceptAll.SelectTxs  — pass-through selection, no validation;
    * Base.SelectTxs       — policy-driven selection: sort the pending
      transactions, submit each to a stateful batch processor, and classify
      every failure into invalid / nonce-ahead / cumulative-gas / fatal.
  The development below is a shallow embedding of that file.  External
  collaborators (go-ethereum types, the pool and state packages) are modelled
  by exactly the surface the selector uses.
-/

namespace TxSelector

/-- Hex rendering of a hash, modelling common.Hash.Hex(): the 0x-prefixed
hexadecimal digits of the hash value. -/
def Hex (h : Nat) : String := "0x" ++ (Nat.toDigits 16 h).asString

/-- go-ethereum types.Transaction, modelled by the only surface the selector
uses: its hash (the selector calls t.Hash().Hex() and copies the value). -/
structure Transaction where
  hash : Nat
deriving DecidableEq, Repr

/-- types.Transaction.Hash(). -/
def Transaction.Hash (t : Transaction) : Nat := t.hash

/-- Modelled from the spec: pool.Transaction of the hermez-core pool package
(not in this excerpt) — a transaction plus pool metadata; the selector only
reads the embedded Transaction and its hash, so only that field is modelled. -/
structure PoolTransaction where
  Transaction : Transaction
deriving DecidableEq, Repr

/-- pool.Transaction.Hash(): promoted from the embedded types.Transaction. -/
def PoolTransaction.Hash (tx : PoolTransaction) : Nat := tx.Transaction.Hash

/-- common.Address, passed through opaquely to the processor. -/
abbrev Address := Nat

/-- Modelled from the spec: a Go error value as the selector observes it.
msg is the string Error() returns (the selector keys the invalid-transaction
set by it); the two Bool fields record the results of the wrapping-aware
errors.Is comparisons against the state package sentinels
ErrNonceIsBiggerThanAccountNonce and ErrInvalidCumulativeGas. -/
structure GoError where
  msg : String
  isNonceAhead : Bool
  isCumulativeGas : Bool
deriving DecidableEq, Repr

/-- Modelled from the spec: the state.ErrNonceIsBiggerThanAccountNonce
sentinel (its message text is not in the excerpt); errors.Is of the sentinel
against itself holds and against the other sentinel does not. -/
def ErrNonceIsBiggerThanAccountNonce : GoError :=
  { msg := "nonce is bigger than account nonce", isNonceAhead := true,
    isCumulativeGas := false }

/-- Modelled from the spec: the state.ErrInvalidCumulativeGas sentinel (its
message text is not in the excerpt). -/
def ErrInvalidCumulativeGas : GoError :=
  { msg := "cumulative gas is invalid", isNonceAhead := false,
    isCumulativeGas := true }

/-- Modelled from the spec: the processing result the batch processor reports
for one transaction — a success flag plus, on failure, an error value. -/
inductive Result where
  | success
  | failed (err : GoError)
deriving DecidableEq, Repr

/-- Result.Failed(). -/
def Result.Failed : Result → Bool
  | .success => false
  | .failed _ => true

/-- Result.Err: the error carried by a failed result, nil on success. -/
def Result.Err : Result → Option GoError
  | .success => none
  | .failed err => some err

/-- The batchProcessor interface consumed by the selector.  The Go processor
is stateful (its accumulated batch state is mutated by every call), so
ProcessTransaction is embedded with an explicit state of type σ threaded
through each call. -/
structure batchProcessor (σ : Type) where
  ProcessTransaction : σ → Transaction → Address → Result × σ

/-- The TxSorter interface: a pure ordering policy over pending
transactions. -/
structure TxSorter where
  SortTxs : List PoolTransaction → List PoolTransaction

/-- Modelled from the spec: the TxSorterType configuration enum.  Two named
values select the two comparator policies; any other value (the comparators
and the concrete enum representation are external to this excerpt) is
unrecognized. -/
inductive TxSorterType where
  | ByCostAndTime
  | ByCostAndNonce
  | Unrecognized (tag : Nat)
deriving DecidableEq, Repr

/-- The selector configuration: which sorter to construct. -/
structure Config where
  TxSorterType : TxSorterType

/-- Modelled from the spec: TxSorterByCostAndTime — its comparator is an
external pluggable policy not part of this excerpt and no claim depends on
the order it produces, so it is modelled as an unspecified ordering
(placeholder: the input order). -/
def TxSorterByCostAndTime : TxSorter := { SortTxs := fun txs => txs }

/-- Modelled from the spec: TxSorterByCostAndNonce — comparator external to
this excerpt, modelled as an unspecified ordering (placeholder: the input
order). -/
def TxSorterByCostAndNonce : TxSorter := { SortTxs := fun txs => txs }

/-- The Base selector.  The Go field is an interface value that the
constructor may leave nil, so it is embedded as an Option. -/
structure Base where
  TxSorter : Option TxSorter

/-- NewTxSelectorBase: switch on cfg.TxSorterType with no default case — an
unrecognized value leaves the sorter interface nil. -/
def NewTxSelectorBase (cfg : Config) : Base :=
  let sorter : Option TxSorter :=
    match cfg.TxSorterType with
    | .ByCostAndTime => some TxSorterByCostAndTime
    | .ByCostAndNonce => some TxSorterByCostAndNonce
    | .Unrecognized _ => none
  { TxSorter := sorter }

/-- The quadruple Base.SelectTxs and AcceptAll.SelectTxs return. -/
structure SelectResult where
  selectedTxs : List Transaction
  selectedTxsHashes : List String
  invalidTxsHashes : List String
  err : Option GoError
deriving DecidableEq, Repr

/-- The AcceptAll selector (empty struct). -/
structure AcceptAll where
deriving DecidableEq, Repr

/-- NewTxSelectorAcceptAll. -/
def NewTxSelectorAcceptAll : AcceptAll := {}

/-- AcceptAll.SelectTxs: copy every pending transaction and its hash in input
order; no validation, no processor call (the processor state is returned
untouched). -/
def AcceptAll.SelectTxs {σ : Type} (_ : AcceptAll) (_ : batchProcessor σ)
    (s : σ) (pendingTxs : List PoolTransaction) (_ : Address) :
    SelectResult × σ :=
  let selectedTxs := pendingTxs.map (fun tx => tx.Transaction)
  let selectedTxsHashes := pendingTxs.map (fun tx => Hex tx.Hash)
  ({ selectedTxs := selectedTxs, selectedTxsHashes := selectedTxsHashes,
     invalidTxsHashes := [], err := none }, s)

/-- The for-loop of Base.SelectTxs over the sorted transactions, with the
three accumulator slices explicit and the processor state threaded through.
InvalidTxErrors is the state.InvalidTxErrors string-keyed set (external to
this excerpt, passed as a parameter); membership is tested on err.Error()
first, then the two wrapping-aware sentinel comparisons, then the fatal
fall-through. -/
def selectTxsLoop {σ : Type} (InvalidTxErrors : String → Bool)
    (bp : batchProcessor σ) (sequencerAddress : Address) :
    List PoolTransaction → σ → List Transaction → List String → List String →
    SelectResult × σ
  | [], s, selectedTxs, selectedTxsHashes, invalidTxsHashes =>
      ({ selectedTxs := selectedTxs, selectedTxsHashes := selectedTxsHashes,
         invalidTxsHashes := invalidTxsHashes, err := none }, s)
  | tx :: rest, s, selectedTxs, selectedTxsHashes, invalidTxsHashes =>
      match bp.ProcessTransaction s tx.Transaction sequencerAddress with
      | (Result.failed err, s1) =>
          if InvalidTxErrors err.msg then
            selectTxsLoop InvalidTxErrors bp sequencerAddress rest s1
              selectedTxs selectedTxsHashes
              (invalidTxsHashes ++ [Hex tx.Hash])
          else if err.isNonceAhead then
            selectTxsLoop InvalidTxErrors bp sequencerAddress rest s1
              selectedTxs selectedTxsHashes invalidTxsHashes
          else if err.isCumulativeGas then
            ({ selectedTxs := selectedTxs,
               selectedTxsHashes := selectedTxsHashes,
               invalidTxsHashes := invalidTxsHashes, err := none }, s1)
          else
            ({ selectedTxs := [], selectedTxsHashes := [],
               invalidTxsHashes := [], err := some err }, s1)
      | (Result.success, s1) =>
          selectTxsLoop InvalidTxErrors bp sequencerAddress rest s1
            (selectedTxs ++ [tx.Transaction])
            (selectedTxsHashes ++ [Hex tx.Transaction.Hash])
            invalidTxsHashes

/-- Base.SelectTxs: sort, then run the classification loop from empty
accumulators.  A nil sorter (the unrecognized-configuration case) makes the
Go code dereference a nil interface and crash; that crash is embedded as
none. -/
def Base.SelectTxs {σ : Type} (b : Base) (InvalidTxErrors : String → Bool)
    (bp : batchProcessor σ) (s : σ) (pendingTxs : List PoolTransaction)
    (sequencerAddress : Address) : Option (SelectResult × σ) :=
  match b.TxSorter with
  | none => none
  | some sorter =>
      some (selectTxsLoop InvalidTxErrors bp sequencerAddress
        (sorter.SortTxs pendingTxs) s [] [] [])

/-- Specification device (not from the source): the loop over this list of
transactions, started in this processor state, reaches the end of the list
without an early return — every step is a success, an invalid-set failure or
a nonce-ahead skip.  It characterises the prefixes already consumed when the
loop reaches a given position. -/
def selectTxsLoopNoStop {σ : Type} (InvalidTxErrors : String → Bool)
    (bp : batchProcessor σ) (sequencerAddress : Address) :
    List PoolTransaction → σ → Bool
  | [], _ => true
  | tx :: rest, s =>
      match bp.ProcessTransaction s tx.Transaction sequencerAddress with
      | (Result.failed err, s1) =>
          if InvalidTxErrors err.msg then
            selectTxsLoopNoStop InvalidTxErrors bp sequencerAddress rest s1
          else if err.isNonceAhead then
            selectTxsLoopNoStop InvalidTxErrors bp sequencerAddress rest s1
          else false
      | (Result.success, s1) =>
          selectTxsLoopNoStop InvalidTxErrors bp sequencerAddress rest s1

/- Concrete instances used by the witnesses below. -/

/-- A pending pool transaction with hash 1. -/
def txA : PoolTransaction := { Transaction := { hash := 1 } }

/-- A pending pool transaction with hash 2. -/
def txB : PoolTransaction := { Transaction := { hash := 2 } }

/-- A pending pool transaction with hash 3. -/
def txC : PoolTransaction := { Transaction := { hash := 3 } }

/-- A sorter that keeps the input order. -/
def idSorter : TxSorter := { SortTxs := fun txs => txs }

/-- A concrete invalid-transaction error set containing exactly the string
of errSig. -/
def invSig : String → Bool := fun m => decide (m = "invalid signature")

/-- An error in the invalid-transaction set, wrapping neither sentinel. -/
def errSig : GoError :=
  { msg := "invalid signature", isNonceAhead := false, isCumulativeGas := false }

/-- An error whose string is in the invalid-transaction set and that also
wraps both sentinels (errors.Is holds for both). -/
def errSigBoth : GoError :=
  { msg := "invalid signature", isNonceAhead := true, isCumulativeGas := true }

/-- An unclassified error: not in the invalid set, wrapping no sentinel. -/
def errBoom : GoError :=
  { msg := "processor broken", isNonceAhead := false, isCumulativeGas := false }

/-- The error a stateful processor reports when the same transaction is
submitted a second time. -/
def errDup : GoError :=
  { msg := "nonce already used", isNonceAhead := false, isCumulativeGas := false }

/-- An invalid-transaction error set containing exactly the string of
errDup. -/
def invDup : String → Bool := fun m => decide (m = "nonce already used")

/-- A stateful processor whose state counts the calls made so far and whose
reply to the n-th call is the n-th entry of the script (success past its
end). -/
def scriptBp (script : List Result) : batchProcessor Nat :=
  { ProcessTransaction := fun s _ _ => (script.getD s Result.success, s + 1) }

/-- A side-effect-free processor: accepts everything, never touches its
state. -/
def pureBp : batchProcessor Nat :=
  { ProcessTransaction := fun s _ _ => (Result.success, s) }

/-- A stateful processor that accepts the first submission and rejects every
later one as a duplicate — the behaviour of a nonce-tracking simulator fed
the same transaction twice. -/
def dupBp : batchProcessor Nat :=
  { ProcessTransaction := fun s _ _ =>
      (if s = 0 then Result.success else Result.failed errDup, s + 1) }

/-- The run of the policy-driven selector on the duplicated pending list
[txA, txA] against dupBp: the first copy is selected, the second is recorded
invalid, so the hash 0x1 ends up in both hash lists. -/
def c7run : SelectResult × Nat :=
  (Base.SelectTxs { TxSorter := some idSorter } invDup dupBp 0 [txA, txA] 9).getD
    ({ selectedTxs := [], selectedTxsHashes := [], invalidTxsHashes := [],
       err := none }, 0)

/- Helper lemmas about the loop. -/

/-- If the loop consumes front without an early return, running it on
front ++ rest is running it on front and then on rest from the state and
accumulators front produced. -/
theorem selectTxsLoop_append {σ : Type} (I : String → Bool)
    (bp : batchProcessor σ) (addr : Address) :
    ∀ (front rest : List PoolTransaction) (s : σ) (sel : List Transaction)
      (selH invH : List String),
      selectTxsLoopNoStop I bp addr front s = true →
      selectTxsLoop I bp addr (front ++ rest) s sel selH invH
        = selectTxsLoop I bp addr rest
            (selectTxsLoop I bp addr front s sel selH invH).2
            (selectTxsLoop I bp addr front s sel selH invH).1.selectedTxs
            (selectTxsLoop I bp addr front s sel selH invH).1.selectedTxsHashes
            (selectTxsLoop I bp addr front s sel selH invH).1.invalidTxsHashes := by
  intro front
  induction front with
  | nil => intro rest s sel selH invH _; simp [selectTxsLoop]
  | cons tx front ih =>
    intro rest s sel selH invH h
    simp only [selectTxsLoopNoStop] at h
    simp only [List.cons_append, selectTxsLoop]
    rcases hp : bp.ProcessTransaction s tx.Transaction addr with ⟨res, s1⟩
    rw [hp] at h
    cases res with
    | success => exact ih rest s1 _ _ _ h
    | failed err =>
      by_cases hI : I err.msg
      · simp only [hI, if_true] at h ⊢
        exact ih rest s1 _ _ _ h
      · by_cases hna : err.isNonceAhead = true
        · simp only [hI, hna, if_false, if_true, Bool.false_eq_true] at h ⊢
          exact ih rest s1 _ _ _ h
        · simp [hI, hna] at h

/-- The selected-hash accumulator stays the image of the selected-transaction
accumulator under hex-of-hash throughout the loop. -/
theorem selectTxsLoop_aligned {σ : Type} (I : String → Bool)
    (bp : batchProcessor σ) (addr : Address) :
    ∀ (L : List PoolTransaction) (s : σ) (sel : List Transaction)
      (selH invH : List String),
      selH = sel.map (fun t => Hex t.Hash) →
      (selectTxsLoop I bp addr L s sel selH invH).1.selectedTxsHashes
        = (selectTxsLoop I bp addr L s sel selH invH).1.selectedTxs.map
            (fun t => Hex t.Hash) := by
  intro L
  induction L with
  | nil => intro s sel selH invH h; simpa [selectTxsLoop] using h
  | cons tx rest ih =>
    intro s sel selH invH h
    simp only [selectTxsLoop]
    rcases hp : bp.ProcessTransaction s tx.Transaction addr with ⟨res, s1⟩
    cases res with
    | success =>
      exact ih s1 _ _ _ (by simp [h])
    | failed err =>
      by_cases hI : I err.msg
      · simp only [hI, if_true]
        exact ih s1 _ _ _ h
      · by_cases hna : err.isNonceAhead = true
        · simp only [hI, hna, if_false, if_true, Bool.false_eq_true]
          exact ih s1 _ _ _ h
        · by_cases hcg : err.isCumulativeGas = true
          · simp only [hI, hna, hcg]
            simpa using h
          · simp [hI, hna, hcg]

/-- Against a processor that never changes its state, the loop returns the
state it was started in. -/
theorem selectTxsLoop_state_of_pure {σ : Type} (I : String → Bool)
    (bp : batchProcessor σ) (addr : Address)
    (hpure : ∀ (s : σ) (t : Transaction) (a : Address),
      (bp.ProcessTransaction s t a).2 = s) :
    ∀ (L : List PoolTransaction) (s : σ) (sel : List Transaction)
      (selH invH : List String),
      (selectTxsLoop I bp addr L s sel selH invH).2 = s := by
  intro L
  induction L with
  | nil => intro s sel selH invH; simp [selectTxsLoop]
  | cons tx rest ih =>
    intro s sel selH invH
    simp only [selectTxsLoop]
    rcases hp : bp.ProcessTransaction s tx.Transaction addr with ⟨res, s1⟩
    have hs1 : s1 = s := by
      have := hpure s tx.Transaction addr
      rw [hp] at this
      exact this
    cases res with
    | success => rw [ih, hs1]
    | failed err =>
      by_cases hI : I err.msg
      · simp only [hI, if_true]; rw [ih, hs1]
      · by_cases hna : err.isNonceAhead = true
        · simp only [hI, hna, if_false, if_true, Bool.false_eq_true]
          rw [ih, hs1]
        · by_cases hcg : err.isCumulativeGas = true
          · simp [hI, hna, hcg, hs1]
          · simp [hI, hna, hcg, hs1]

/-- Loop invariant for hash bookkeeping: if the accumulated hash lists are
mutually disjoint, contain no hash of the remaining transactions, and the
remaining hashes are pairwise distinct, then the two output hash lists are
disjoint and each is an order-preserving selection from the accumulated part
followed by the remaining hashes in processing order. -/
theorem selectTxsLoop_disjoint_sublist {σ : Type} (I : String → Bool)
    (bp : batchProcessor σ) (addr : Address) :
    ∀ (L : List PoolTransaction) (s : σ) (sel : List Transaction)
      (selH invH : List String),
      (∀ h, h ∈ selH → h ∉ invH) →
      (∀ h, h ∈ selH ∨ h ∈ invH → h ∉ L.map (fun tx => Hex tx.Hash)) →
      (L.map (fun tx => Hex tx.Hash)).Nodup →
      (∀ h, h ∈ (selectTxsLoop I bp addr L s sel selH invH).1.selectedTxsHashes →
         h ∉ (selectTxsLoop I bp addr L s sel selH invH).1.invalidTxsHashes)
      ∧ List.Sublist (selectTxsLoop I bp addr L s sel selH invH).1.selectedTxsHashes
          (selH ++ L.map (fun tx => Hex tx.Hash))
      ∧ List.Sublist (selectTxsLoop I bp addr L s sel selH invH).1.invalidTxsHashes
          (invH ++ L.map (fun tx => Hex tx.Hash)) := by
  intro L
  induction L with
  | nil =>
    intro s sel selH invH hd _ _
    simp only [selectTxsLoop, List.map_nil, List.append_nil]
    exact ⟨hd, List.Sublist.refl _, List.Sublist.refl _⟩
  | cons tx rest ih =>
    intro s sel selH invH hd hfresh hnd
    have hh : Hex tx.Transaction.Hash = Hex tx.Hash := rfl
    simp only [List.map_cons, List.nodup_cons] at hnd
    obtain ⟨htx, hnd'⟩ := hnd
    simp only [List.map_cons] at hfresh ⊢
    simp only [selectTxsLoop]
    rcases hp : bp.ProcessTransaction s tx.Transaction addr with ⟨res, s1⟩
    cases res with
    | success =>
      have key := ih s1 (sel ++ [tx.Transaction])
        (selH ++ [Hex tx.Transaction.Hash]) invH
        (by
          intro h hmem hbad
          rcases List.mem_append.mp hmem with h1 | h2
          · exact hd h h1 hbad
          · rw [List.mem_singleton] at h2
            rw [h2, hh] at hbad
            exact hfresh _ (Or.inr hbad) (List.mem_cons_self _ _))
        (by
          intro h hmem hbad
          rcases hmem with h1 | h2
          · rcases List.mem_append.mp h1 with ha | hb
            · exact hfresh h (Or.inl ha) (List.mem_cons_of_mem _ hbad)
            · rw [List.mem_singleton] at hb
              rw [hb, hh] at hbad
              exact htx hbad
          · exact hfresh h (Or.inr h2) (List.mem_cons_of_mem _ hbad))
        hnd'
      obtain ⟨k1, k2, k3⟩ := key
      refine ⟨k1, ?_, ?_⟩
      · rw [hh] at k2
        rw [List.append_assoc, List.singleton_append] at k2
        exact k2
      · exact k3.trans ((List.sublist_cons_self _ _).append_left invH)
    | failed err =>
      by_cases hI : I err.msg
      · simp only [hI, if_true]
        have key := ih s1 sel selH (invH ++ [Hex tx.Hash])
          (by
            intro h hmem hbad
            rcases List.mem_append.mp hbad with h1 | h2
            · exact hd h hmem h1
            · rw [List.mem_singleton] at h2
              rw [h2] at hmem
              exact hfresh _ (Or.inl hmem) (List.mem_cons_self _ _))
          (by
            intro h hmem hbad
            rcases hmem with h1 | h2
            · exact hfresh h (Or.inl h1) (List.mem_cons_of_mem _ hbad)
            · rcases List.mem_append.mp h2 with ha | hb
              · exact hfresh h (Or.inr ha) (List.mem_cons_of_mem _ hbad)
              · rw [List.mem_singleton] at hb
                rw [hb] at hbad
                exact htx hbad)
          hnd'
        obtain ⟨k1, k2, k3⟩ := key
        refine ⟨k1, ?_, ?_⟩
        · exact k2.trans ((List.sublist_cons_self _ _).append_left selH)
        · rw [List.append_assoc, List.singleton_append] at k3
          exact k3
      · by_cases hna : err.isNonceAhead = true
        · simp only [hI, hna, if_false, if_true, Bool.false_eq_true]
          have key := ih s1 sel selH invH hd
            (by
              intro h hmem hbad
              exact hfresh h hmem (List.mem_cons_of_mem _ hbad))
            hnd'
          obtain ⟨k1, k2, k3⟩ := key
          exact ⟨k1,
            k2.trans ((List.sublist_cons_self _ _).append_left selH),
            k3.trans ((List.sublist_cons_self _ _).append_left invH)⟩
        · by_cases hcg : err.isCumulativeGas = true
          · simp only [hI, hna, hcg, if_false, if_true, Bool.false_eq_true]
            exact ⟨hd, List.sublist_append_left _ _, List.sublist_append_left _ _⟩
          · simp only [hI, hna, hcg, if_false, Bool.false_eq_true]
            refine ⟨?_, List.nil_sublist _, List.nil_sublist _⟩
            intro h hmem
            simp at hmem

/-- Claim C1: if the policy-driven selector reaches sorted position k (the
positions before it — front — were consumed without an early return,
producing the accumulators sel, selH, invH and state s1) and the processor
fails the transaction at position k with an error that is the
cumulative-gas sentinel (errors.Is holds for it, it is not in the invalid
set and is not the nonce-ahead sentinel), then SelectTxs stops immediately:
it returns exactly the lists accumulated through position k−1 with a nil
error, and the result — including the final processor state s2 — does not
depend on the transactions after position k, so no further
ProcessTransaction call is made. -/
theorem base_selectTxs_capacity_stop {σ : Type} (I : String → Bool)
    (bp : batchProcessor σ) (sorter : TxSorter)
    (pendingTxs : List PoolTransaction) (addr : Address)
    (front : List PoolTransaction) (tx : PoolTransaction)
    (post : List PoolTransaction) (s0 s1 s2 : σ) (err : GoError)
    (sel : List Transaction) (selH invH : List String)
    (hsort : sorter.SortTxs pendingTxs = front ++ tx :: post)
    (hfront : selectTxsLoopNoStop I bp addr front s0 = true)
    (hacc : selectTxsLoop I bp addr front s0 [] [] []
      = ({ selectedTxs := sel, selectedTxsHashes := selH,
           invalidTxsHashes := invH, err := none }, s1))
    (hproc : bp.ProcessTransaction s1 tx.Transaction addr
      = (Result.failed err, s2))
    (hinv : I err.msg = false)
    (hna : err.isNonceAhead = false)
    (hcg : err.isCumulativeGas = true) :
    Base.SelectTxs { TxSorter := some sorter } I bp s0 pendingTxs addr
      = some ({ selectedTxs := sel, selectedTxsHashes := selH,
                invalidTxsHashes := invH, err := none }, s2) := by
  simp only [Base.SelectTxs]
  rw [hsort, selectTxsLoop_append I bp addr front (tx :: post) s0 [] [] [] hfront,
    hacc]
  simp only [selectTxsLoop, hproc, hinv, hna, hcg]
  simp

/-- Witness for C1: a three-transaction pending list where position 0
succeeds and position 1 fails with the cumulative-gas sentinel; the run
returns the selection accumulated through position 0, a nil error, and never
processes position 2. -/
theorem base_selectTxs_capacity_stop_witness :
    Base.SelectTxs { TxSorter := some idSorter } invSig
      (scriptBp [Result.success, Result.failed ErrInvalidCumulativeGas]) 0
      [txA, txB, txC] 9
      = some ({ selectedTxs := [{ hash := 1 }], selectedTxsHashes := ["0x1"],
                invalidTxsHashes := [], err := none }, 2) :=
  base_selectTxs_capacity_stop invSig
    (scriptBp [Result.success, Result.failed ErrInvalidCumulativeGas]) idSorter
    [txA, txB, txC] 9 [txA] txB [txC] 0 1 2 ErrInvalidCumulativeGas
    [{ hash := 1 }] ["0x1"] [] (by rfl) (by rfl) (by rfl) (by rfl) (by decide)
    (by rfl) (by rfl)

/-- Claim C2: if the policy-driven selector reaches a position whose
processing fails with an error that is in none of the three recognised
classes (not in the invalid set, wrapping neither sentinel), SelectTxs
returns nil selected transactions, nil selected hashes, nil invalid hashes
and that non-nil error: everything accumulated before that position (sel,
selH, invH in the hypotheses) is discarded. -/
theorem base_selectTxs_fatal_abort {σ : Type} (I : String → Bool)
    (bp : batchProcessor σ) (sorter : TxSorter)
    (pendingTxs : List PoolTransaction) (addr : Address)
    (front : List PoolTransaction) (tx : PoolTransaction)
    (post : List PoolTransaction) (s0 s1 s2 : σ) (err : GoError)
    (sel : List Transaction) (selH invH : List String)
    (hsort : sorter.SortTxs pendingTxs = front ++ tx :: post)
    (hfront : selectTxsLoopNoStop I bp addr front s0 = true)
    (hacc : selectTxsLoop I bp addr front s0 [] [] []
      = ({ selectedTxs := sel, selectedTxsHashes := selH,
           invalidTxsHashes := invH, err := none }, s1))
    (hproc : bp.ProcessTransaction s1 tx.Transaction addr
      = (Result.failed err, s2))
    (hinv : I err.msg = false)
    (hna : err.isNonceAhead = false)
    (hcg : err.isCumulativeGas = false) :
    Base.SelectTxs { TxSorter := some sorter } I bp s0 pendingTxs addr
      = some ({ selectedTxs := [], selectedTxsHashes := [],
                invalidTxsHashes := [], err := some err }, s2) := by
  simp only [Base.SelectTxs]
  rw [hsort, selectTxsLoop_append I bp addr front (tx :: post) s0 [] [] [] hfront,
    hacc]
  simp only [selectTxsLoop, hproc, hinv, hna, hcg]
  simp

/-- Witness for C2: one success followed by an unclassified failure; the
already-selected transaction is discarded and the error propagates. -/
theorem base_selectTxs_fatal_abort_witness :
    Base.SelectTxs { TxSorter := some idSorter } invSig
      (scriptBp [Result.success, Result.failed errBoom]) 0 [txA, txB] 9
      = some ({ selectedTxs := [], selectedTxsHashes := [],
                invalidTxsHashes := [], err := some errBoom }, 2) :=
  base_selectTxs_fatal_abort invSig
    (scriptBp [Result.success, Result.failed errBoom]) idSorter
    [txA, txB] 9 [txA] txB [] 0 1 2 errBoom
    [{ hash := 1 }] ["0x1"] [] (by rfl) (by rfl) (by rfl) (by rfl) (by decide)
    (by rfl) (by rfl)

/-- Claim C3: whenever the selection loop processes a transaction whose
failure error string is in the invalid-transaction set, that step leaves the
selected transactions and selected hashes untouched, appends the
transaction's hash exactly once to invalidHashes, and continues with the
next transaction (stated for every reachable accumulator state, so it covers
every position of every run of Base.SelectTxs). -/
theorem base_selectTxs_invalid_recorded {σ : Type} (I : String → Bool)
    (bp : batchProcessor σ) (addr : Address) (tx : PoolTransaction)
    (post : List PoolTransaction) (s s' : σ) (err : GoError)
    (sel : List Transaction) (selH invH : List String)
    (hproc : bp.ProcessTransaction s tx.Transaction addr
      = (Result.failed err, s'))
    (hinv : I err.msg = true) :
    selectTxsLoop I bp addr (tx :: post) s sel selH invH
      = selectTxsLoop I bp addr post s' sel selH (invH ++ [Hex tx.Hash]) := by
  simp only [selectTxsLoop, hproc, hinv, if_true]

/-- Witness for C3: a transaction failing with an invalid-set error has its
hash recorded in invalidHashes and the loop moves on. -/
theorem base_selectTxs_invalid_recorded_witness :
    selectTxsLoop invSig (scriptBp [Result.failed errSig]) 9 [txA, txB] 0 [] [] []
      = selectTxsLoop invSig (scriptBp [Result.failed errSig]) 9 [txB] 1 [] []
          ["0x1"] :=
  base_selectTxs_invalid_recorded invSig (scriptBp [Result.failed errSig]) 9
    txA [txB] 0 1 errSig [] [] [] (by rfl) (by decide)

/-- Claim C4: whenever the selection loop processes a transaction whose
failure is the nonce-ahead sentinel (and whose string is not in the invalid
set), that step appends to none of the three accumulators and iteration
continues with the next transaction in sorted order (stated for every
reachable accumulator state). -/
theorem base_selectTxs_nonce_ahead_skipped {σ : Type} (I : String → Bool)
    (bp : batchProcessor σ) (addr : Address) (tx : PoolTransaction)
    (post : List PoolTransaction) (s s' : σ) (err : GoError)
    (sel : List Transaction) (selH invH : List String)
    (hproc : bp.ProcessTransaction s tx.Transaction addr
      = (Result.failed err, s'))
    (hinv : I err.msg = false)
    (hna : err.isNonceAhead = true) :
    selectTxsLoop I bp addr (tx :: post) s sel selH invH
      = selectTxsLoop I bp addr post s' sel selH invH := by
  simp only [selectTxsLoop, hproc, hinv, hna]
  simp

/-- Witness for C4: a transaction failing with the nonce-ahead sentinel is
silently skipped. -/
theorem base_selectTxs_nonce_ahead_skipped_witness :
    selectTxsLoop invSig
      (scriptBp [Result.failed ErrNonceIsBiggerThanAccountNonce]) 9 [txA, txB] 0
      [] [] []
      = selectTxsLoop invSig
          (scriptBp [Result.failed ErrNonceIsBiggerThanAccountNonce]) 9 [txB] 1
          [] [] [] :=
  base_selectTxs_nonce_ahead_skipped invSig
    (scriptBp [Result.failed ErrNonceIsBiggerThanAccountNonce]) 9 txA [txB] 0 1
    ErrNonceIsBiggerThanAccountNonce [] [] [] (by rfl) (by decide) (by rfl)

/-- Claim C5: for every pending list the pass-through selector returns all
transactions copied verbatim in input order, their hashes in input order, an
empty invalid list and a nil error; the selected list has the length of the
input; and the result is independent of the processor and proposer address
and leaves the processor state untouched — no processor call is made. -/
theorem acceptAll_selectTxs_pass_through {σ : Type} (a : AcceptAll)
    (bp bp' : batchProcessor σ) (s : σ) (pendingTxs : List PoolTransaction)
    (addr addr' : Address) :
    a.SelectTxs bp s pendingTxs addr
      = ({ selectedTxs := pendingTxs.map (fun tx => tx.Transaction),
           selectedTxsHashes := pendingTxs.map (fun tx => Hex tx.Hash),
           invalidTxsHashes := [], err := none }, s)
    ∧ (a.SelectTxs bp s pendingTxs addr).1.selectedTxs.length = pendingTxs.length
    ∧ a.SelectTxs bp s pendingTxs addr = a.SelectTxs bp' s pendingTxs addr' :=
  ⟨rfl, by simp [AcceptAll.SelectTxs], rfl⟩

/-- Claim C6: for both selector variants, on every return the selected
hashes are index-aligned with the selected transactions: the hash list is
exactly the map of hex-encoded hash over the transaction list (hence the two
lists have the same length and the hash at index i is the hash of the
transaction at index i). -/
theorem selectTxs_hashes_index_aligned {σ : Type} (I : String → Bool)
    (bp : batchProcessor σ) (s : σ) (pendingTxs : List PoolTransaction)
    (addr : Address) (b : Base) (a : AcceptAll) :
    (∀ (r : SelectResult) (s' : σ),
      b.SelectTxs I bp s pendingTxs addr = some (r, s') →
      r.selectedTxsHashes = r.selectedTxs.map (fun t => Hex t.Hash))
    ∧ (a.SelectTxs bp s pendingTxs addr).1.selectedTxsHashes
        = (a.SelectTxs bp s pendingTxs addr).1.selectedTxs.map
            (fun t => Hex t.Hash) := by
  constructor
  · intro r s' hrun
    cases hb : b.TxSorter with
    | none => simp [Base.SelectTxs, hb] at hrun
    | some sorter =>
      simp only [Base.SelectTxs, hb] at hrun
      have hx := Option.some.inj hrun
      have halign := selectTxsLoop_aligned I bp addr (sorter.SortTxs pendingTxs)
        s [] [] [] (by simp)
      rw [hx] at halign
      exact halign
  · simp only [AcceptAll.SelectTxs, List.map_map]
    rfl

/-- Witness for C6: the alignment theorem applied to a concrete one-element
run of the policy-driven selector. -/
theorem selectTxs_hashes_index_aligned_witness :
    (["0x1"] : List String)
      = ([{ hash := 1 }] : List Transaction).map (fun t => Hex t.Hash) :=
  (selectTxs_hashes_index_aligned invSig (scriptBp []) 0 [txA] 9
      { TxSorter := some idSorter } {}).1
    { selectedTxs := [{ hash := 1 }], selectedTxsHashes := ["0x1"],
      invalidTxsHashes := [], err := none } 1 (by rfl)

/-- Counterexample to Claim C7 as stated: with the pending list [txA, txA]
(the same transaction handed over twice) and a stateful processor that
accepts the first submission and classifies the second as invalid, the hash
0x1 appears in the selected hashes and in the invalid hashes of the same
call — so over every pending list and every processor behaviour the
at-most-one-list property fails. -/
theorem base_selectTxs_hash_in_both_lists :
    "0x1" ∈ c7run.1.selectedTxsHashes ∧ "0x1" ∈ c7run.1.invalidTxsHashes := by
  decide

/-- Claim C7 (amended): provided the hashes of the sorted pending
transactions are pairwise distinct, a hash appears in at most one of
selectedHashes and invalidHashes, and each of the two lists is an
order-preserving selection (sublist) of the hashes in processing order —
never reordered afterwards. -/
theorem base_selectTxs_hash_disjoint_ordered {σ : Type} (I : String → Bool)
    (bp : batchProcessor σ) (s0 : σ) (pendingTxs : List PoolTransaction)
    (addr : Address) (sorter : TxSorter) (r : SelectResult) (s' : σ)
    (hnodup : ((sorter.SortTxs pendingTxs).map (fun tx => Hex tx.Hash)).Nodup)
    (hrun : Base.SelectTxs { TxSorter := some sorter } I bp s0 pendingTxs addr
      = some (r, s')) :
    (∀ h, h ∈ r.selectedTxsHashes → h ∉ r.invalidTxsHashes)
    ∧ List.Sublist r.selectedTxsHashes
        ((sorter.SortTxs pendingTxs).map (fun tx => Hex tx.Hash))
    ∧ List.Sublist r.invalidTxsHashes
        ((sorter.SortTxs pendingTxs).map (fun tx => Hex tx.Hash)) := by
  simp only [Base.SelectTxs] at hrun
  have hx := Option.some.inj hrun
  have key := selectTxsLoop_disjoint_sublist I bp addr (sorter.SortTxs pendingTxs)
    s0 [] [] [] (by intro h hmem; simp at hmem)
    (by intro h hmem; simp at hmem) hnodup
  rw [hx] at key
  simpa using key

/-- Witness for the amended C7: a two-transaction all-success run with
distinct hashes — the hash lists are disjoint and ordered. -/
theorem base_selectTxs_hash_disjoint_ordered_witness :
    ("0x1" ∈ (["0x1", "0x2"] : List String) → "0x1" ∉ ([] : List String))
    ∧ List.Sublist (["0x1", "0x2"] : List String) ["0x1", "0x2"]
    ∧ List.Sublist ([] : List String) (["0x1", "0x2"] : List String) :=
  ⟨fun hmem =>
      (base_selectTxs_hash_disjoint_ordered invSig (scriptBp []) 0 [txA, txB] 9
        idSorter
        { selectedTxs := [{ hash := 1 }, { hash := 2 }],
          selectedTxsHashes := ["0x1", "0x2"], invalidTxsHashes := [],
          err := none } 2 (by decide) (by rfl)).1 "0x1" hmem,
    (base_selectTxs_hash_disjoint_ordered invSig (scriptBp []) 0 [txA, txB] 9
        idSorter
        { selectedTxs := [{ hash := 1 }, { hash := 2 }],
          selectedTxsHashes := ["0x1", "0x2"], invalidTxsHashes := [],
          err := none } 2 (by decide) (by rfl)).2⟩

/-- Claim C8 (the defect the claim requires fixed): constructing the
policy-driven selector with a sorter type that is not one of the two named
enum values does NOT fail — it returns a selector whose sorter dependency is
nil, and calling SelectTxs on it dereferences the nil interface (embedded as
none), while both recognised values do install a sorter. -/
theorem newTxSelectorBase_unrecognized_nil_sorter :
    (NewTxSelectorBase { TxSorterType := TxSorterType.Unrecognized 0 }).TxSorter
      = none
    ∧ (∀ (σ : Type) (bp : batchProcessor σ) (s : σ)
        (pendingTxs : List PoolTransaction) (addr : Address)
        (I : String → Bool),
        (NewTxSelectorBase { TxSorterType := TxSorterType.Unrecognized 0 }).SelectTxs
          I bp s pendingTxs addr = none)
    ∧ (NewTxSelectorBase { TxSorterType := TxSorterType.ByCostAndTime }).TxSorter
        = some TxSorterByCostAndTime
    ∧ (NewTxSelectorBase { TxSorterType := TxSorterType.ByCostAndNonce }).TxSorter
        = some TxSorterByCostAndNonce :=
  ⟨rfl, fun _ _ _ _ _ _ => rfl, rfl, rfl⟩

/-- Claim C9: with the (deterministic) configured sorter and a batch
processor that is a pure function of its arguments — its state component is
returned unchanged by every call — a completed run of SelectTxs leaves the
processor state equal to the initial one, so re-running SelectTxs on the
same pending list and proposer address yields the identical output. -/
theorem base_selectTxs_idempotent {σ : Type} (I : String → Bool)
    (bp : batchProcessor σ) (b : Base) (s : σ)
    (pendingTxs : List PoolTransaction) (addr : Address)
    (hpure : ∀ (st : σ) (t : Transaction) (a : Address),
      (bp.ProcessTransaction st t a).2 = st)
    (r : SelectResult) (s1 : σ)
    (hrun : b.SelectTxs I bp s pendingTxs addr = some (r, s1)) :
    s1 = s ∧ b.SelectTxs I bp s1 pendingTxs addr = some (r, s1) := by
  cases hb : b.TxSorter with
  | none => simp [Base.SelectTxs, hb] at hrun
  | some sorter =>
    simp only [Base.SelectTxs, hb] at hrun ⊢
    have hx := Option.some.inj hrun
    have hs := selectTxsLoop_state_of_pure I bp addr hpure
      (sorter.SortTxs pendingTxs) s [] [] []
    rw [hx] at hs
    subst hs
    exact ⟨rfl, hrun⟩

/-- Witness for C9: a side-effect-free processor run twice from the same
state gives the same answer. -/
theorem base_selectTxs_idempotent_witness :
    (0 : Nat) = 0
    ∧ Base.SelectTxs { TxSorter := some idSorter } invSig pureBp 0 [txA] 9
        = some ({ selectedTxs := [{ hash := 1 }], selectedTxsHashes := ["0x1"],
                  invalidTxsHashes := [], err := none }, 0) :=
  base_selectTxs_idempotent invSig pureBp { TxSorter := some idSorter } 0 [txA] 9
    (fun _ _ _ => rfl)
    { selectedTxs := [{ hash := 1 }], selectedTxsHashes := ["0x1"],
      invalidTxsHashes := [], err := none } 0 (by rfl)

/-- Claim C10: the invalid-set membership test (by exact error string) comes
before the sentinel comparisons, so an error whose string is in the set is
recorded as permanently invalid — hash appended to invalidHashes, loop
continues — even when that error also wraps BOTH sentinels (errors.Is would
hold for nonce-ahead and for cumulative-gas, the Bool fields set to true
below); neither the silent skip nor the capacity stop fires. -/
theorem base_selectTxs_invalid_set_precedence {σ : Type} (I : String → Bool)
    (bp : batchProcessor σ) (addr : Address) (tx : PoolTransaction)
    (post : List PoolTransaction) (s s' : σ) (m : String)
    (sel : List Transaction) (selH invH : List String)
    (hproc : bp.ProcessTransaction s tx.Transaction addr
      = (Result.failed { msg := m, isNonceAhead := true,
                         isCumulativeGas := true }, s'))
    (hm : I m = true) :
    selectTxsLoop I bp addr (tx :: post) s sel selH invH
      = selectTxsLoop I bp addr post s' sel selH (invH ++ [Hex tx.Hash]) := by
  simp only [selectTxsLoop, hproc]
  simp [hm]

/-- Witness for C10: an error that wraps both sentinels but whose string is
in the invalid set is recorded as invalid and iteration continues. -/
theorem base_selectTxs_invalid_set_precedence_witness :
    selectTxsLoop invSig (scriptBp [Result.failed errSigBoth]) 9 [txA] 0 [] [] []
      = selectTxsLoop invSig (scriptBp [Result.failed errSigBoth]) 9 [] 1 [] []
          ["0x1"] :=
  base_selectTxs_invalid_set_precedence invSig
    (scriptBp [Result.failed errSigBoth]) 9 txA [] 0 1
    "invalid signature" [] [] [] (by rfl) (by decide)

end TxSelector
